import Mathlib

/-!
Shallow embedding of the auth layer of the admin web client.
Strings from the JavaScript runtime are modelled as lists of UTF-16 code
units (`List Nat`); JSON numbers are restricted to integers, which covers
every numeric value the code manipulates (epoch seconds, millisecond
thresholds).
-/

/-- JS strings as lists of UTF-16 code units. -/
abbrev JSStr := List Nat

/-- Convenience injection from Lean string literals into code-unit lists. -/
def jstr (s : String) : JSStr := s.toList.map Char.toNat

mutual
/-- A JavaScript value produced by JSON.parse (numbers restricted to integers). -/
inductive JSValue where
  | null
  | bool (b : Bool)
  | num (n : Int)
  | str (s : JSStr)
  | arr (elems : JSArr)
  | obj (fields : JSObj)
deriving DecidableEq
/-- Spine of a JS array value. -/
inductive JSArr where
  | nil
  | cons (hd : JSValue) (tl : JSArr)
deriving DecidableEq
/-- Spine of a JS object value: ordered key/value fields. -/
inductive JSObj where
  | nil
  | cons (key : JSStr) (val : JSValue) (tl : JSObj)
deriving DecidableEq
end

/-- JavaScript truthiness of a JSValue. -/
def JSValue.truthy : JSValue → Bool
  | .null => false
  | .bool b => b
  | .num n => n ≠ 0
  | .str s => s ≠ []
  | .arr _ => true
  | .obj _ => true

/-- Property lookup `v[key]`; `none` models `undefined` (also for non-objects). -/
def JSObj.lookup (key : JSStr) : JSObj → Option JSValue
  | .nil => none
  | .cons k v tl => if k = key then some v else JSObj.lookup key tl

/-- Property access `v.key` on an arbitrary JS value; `none` is `undefined`. -/
def JSValue.get (v : JSValue) (key : JSStr) : Option JSValue :=
  match v with
  | .obj fields => fields.lookup key
  | _ => none

/-! ## JSON text: code-unit classifiers -/

/-- JSON insignificant whitespace (space, tab, line feed, carriage return). -/
def isJsonWs (c : Nat) : Bool := c = 32 || c = 9 || c = 10 || c = 13

/-- Decimal digit code unit. -/
def isDigitCU (c : Nat) : Bool := 48 ≤ c && c ≤ 57

/-- Hexadecimal digit code unit (either case). -/
def isHexCU (c : Nat) : Bool :=
  (48 ≤ c && c ≤ 57) || (97 ≤ c && c ≤ 102) || (65 ≤ c && c ≤ 70)

/-- Numeric value of a hexadecimal digit code unit. -/
def hexValCU (c : Nat) : Nat :=
  if 48 ≤ c && c ≤ 57 then c - 48
  else if 97 ≤ c && c ≤ 102 then c - 87
  else c - 55

/-- Drop leading JSON whitespace. -/
def jsonSkipWs : JSStr → JSStr
  | [] => []
  | c :: r => if isJsonWs c then jsonSkipWs r else c :: r

/-- Split a code-unit list at its first non-digit: (digit prefix, remainder). -/
def digitRun : JSStr → JSStr × JSStr
  | [] => ([], [])
  | c :: r => if isDigitCU c then ((digitRun r).1.cons c, (digitRun r).2) else ([], c :: r)

/-- Decimal value of a digit code-unit list, most significant first. -/
def digitsToNat (ds : JSStr) : Nat := ds.foldl (fun a c => a * 10 + (c - 48)) 0

/-! ## JSON string bodies (after the opening quote) -/

/-- Translation of a single-character JSON escape code, `\uXXXX` aside. -/
def escCodeOf (e : Nat) : Option Nat :=
  if e = 34 then some 34 else if e = 92 then some 92 else if e = 47 then some 47
  else if e = 98 then some 8 else if e = 102 then some 12 else if e = 110 then some 10
  else if e = 114 then some 13 else if e = 116 then some 9 else none

/-- Parse a JSON string body up to and including the closing quote, returning
the decoded content and the remainder after the quote. Raw control characters
are rejected, as JSON.parse rejects them. -/
def parseStringBody : JSStr → Option (JSStr × JSStr)
  | [] => none
  | c :: r =>
    if c = 34 then some ([], r)
    else if c = 92 then
      match r with
      | [] => none
      | e :: r2 =>
        if e = 117 then
          match r2 with
          | a :: b :: c2 :: d :: r3 =>
            if isHexCU a && isHexCU b && isHexCU c2 && isHexCU d then
              (parseStringBody r3).map (fun p =>
                ((((hexValCU a * 16 + hexValCU b) * 16 + hexValCU c2) * 16 + hexValCU d) :: p.1,
                 p.2))
            else none
          | _ => none
        else
          match escCodeOf e with
          | some u => (parseStringBody r2).map (fun p => (u :: p.1, p.2))
          | none => none
    else if c < 32 then none
    else (parseStringBody r).map (fun p => (c :: p.1, p.2))

/-- Lowercase hexadecimal digit code unit of a value below 16. -/
def hexDigitCU (n : Nat) : Nat := if n < 10 then n + 48 else n + 87

/-- JSON escape of one code unit, as JSON.stringify emits it. -/
def escapeUnit (c : Nat) : JSStr :=
  if c = 34 then [92, 34] else if c = 92 then [92, 92]
  else if c = 8 then [92, 98] else if c = 9 then [92, 116] else if c = 10 then [92, 110]
  else if c = 12 then [92, 102] else if c = 13 then [92, 114]
  else if c < 32 then [92, 117, 48, 48, hexDigitCU (c / 16), hexDigitCU (c % 16)]
  else [c]

/-- Escaped body of a JSON string literal, closing quote included. -/
def printStringBody : JSStr → JSStr
  | [] => [34]
  | c :: t => escapeUnit c ++ printStringBody t

/-- A full JSON string literal for content `s`. -/
def printString (s : JSStr) : JSStr := 34 :: printStringBody s

/-! ## Decimal printing of integers -/

/-- Fuelled tail-recursive decimal digits accumulator (fuel bounds the value,
so the zero-fuel fallback is never reached on intended inputs). -/
def printNatAux : Nat → Nat → JSStr → JSStr
  | 0, n, acc => (n % 10 + 48) :: acc
  | fuel + 1, n, acc =>
    if n < 10 then (n % 10 + 48) :: acc
    else printNatAux fuel (n / 10) ((n % 10 + 48) :: acc)

/-- Decimal digit code units of a natural number, most significant first. -/
def printNatCU (n : Nat) : JSStr := printNatAux n n []

/-- Recursion-theoretic description of `printNatCU`, convenient for proofs. -/
def printNatSpec (n : Nat) : JSStr :=
  if n < 10 then [n % 10 + 48] else printNatSpec (n / 10) ++ [n % 10 + 48]
termination_by n
decreasing_by exact Nat.div_lt_self (by omega) (by omega)

/-- Decimal code units of an integer: optional minus sign, then digits. -/
def printIntCU (i : Int) : JSStr :=
  if i < 0 then 45 :: printNatCU i.natAbs else printNatCU i.natAbs

/-! ## The JSON printer (JSON.stringify on our value type) -/

mutual
/-- Rendering of a JS value as JSON.stringify produces it (no added spacing). -/
def printJSON : JSValue → JSStr
  | .null => [110, 117, 108, 108]
  | .bool true => [116, 114, 117, 101]
  | .bool false => [102, 97, 108, 115, 101]
  | .num n => printIntCU n
  | .str s => printString s
  | .arr xs => 91 :: printElems xs
  | .obj fs => 123 :: printFields fs
/-- Array elements with separators and the closing bracket (bracket only
for the empty spine). -/
def printElems : JSArr → JSStr
  | .nil => [93]
  | .cons v .nil => printJSON v ++ [93]
  | .cons v (.cons w tl) => printJSON v ++ 44 :: printElems (.cons w tl)
/-- Object fields with separators and the closing brace (brace only for the
empty spine). -/
def printFields : JSObj → JSStr
  | .nil => [125]
  | .cons k v .nil => printString k ++ 58 :: (printJSON v ++ [125])
  | .cons k v (.cons k2 v2 tl) =>
    printString k ++ 58 :: (printJSON v ++ 44 :: printFields (.cons k2 v2 tl))
end

/-! ## The JSON parser (JSON.parse), fuelled for totality -/

/-- Match an exact run of code units, returning the remainder. -/
def expectUnits : JSStr → JSStr → Option JSStr
  | [], s => some s
  | p :: pt, c :: ct => if c = p then expectUnits pt ct else none
  | _ :: _, [] => none

mutual
/-- Parse one JSON value, returning it with the unconsumed remainder. -/
def parseJSONVal : Nat → JSStr → Option (JSValue × JSStr)
  | 0, _ => none
  | fuel + 1, s =>
    match jsonSkipWs s with
    | [] => none
    | c :: r =>
      if c = 110 then (expectUnits [117, 108, 108] r).map (fun r2 => (.null, r2))
      else if c = 116 then (expectUnits [114, 117, 101] r).map (fun r2 => (.bool true, r2))
      else if c = 102 then (expectUnits [97, 108, 115, 101] r).map (fun r2 => (.bool false, r2))
      else if c = 34 then (parseStringBody r).map (fun p => (.str p.1, p.2))
      else if c = 91 then
        match jsonSkipWs r with
        | [] => none
        | d :: r2 =>
          if d = 93 then some (.arr .nil, r2)
          else (parseJSONElems fuel (d :: r2)).map (fun p => (.arr p.1, p.2))
      else if c = 123 then
        match jsonSkipWs r with
        | [] => none
        | d :: r2 =>
          if d = 125 then some (.obj .nil, r2)
          else (parseJSONFields fuel (d :: r2)).map (fun p => (.obj p.1, p.2))
      else if c = 45 then
        if (digitRun r).1 = [] then none
        else some (.num (-(digitsToNat (digitRun r).1 : Int)), (digitRun r).2)
      else if isDigitCU c then
        some (.num (digitsToNat (digitRun (c :: r)).1 : Int), (digitRun (c :: r)).2)
      else none
/-- Parse one-or-more comma-separated array elements and the closing bracket. -/
def parseJSONElems : Nat → JSStr → Option (JSArr × JSStr)
  | 0, _ => none
  | fuel + 1, s =>
    (parseJSONVal fuel s).bind fun p =>
      match jsonSkipWs p.2 with
      | [] => none
      | d :: r2 =>
        if d = 44 then (parseJSONElems fuel r2).map (fun q => (.cons p.1 q.1, q.2))
        else if d = 93 then some (.cons p.1 .nil, r2)
        else none
/-- Parse one-or-more object fields and the closing brace. -/
def parseJSONFields : Nat → JSStr → Option (JSObj × JSStr)
  | 0, _ => none
  | fuel + 1, s =>
    match jsonSkipWs s with
    | [] => none
    | c :: r =>
      if c = 34 then
        (parseStringBody r).bind fun kp =>
          match jsonSkipWs kp.2 with
          | [] => none
          | d :: r2 =>
            if d = 58 then
              (parseJSONVal fuel r2).bind fun vp =>
                match jsonSkipWs vp.2 with
                | [] => none
                | e :: r3 =>
                  if e = 44 then
                    (parseJSONFields fuel r3).map (fun q => (.cons kp.1 vp.1 q.1, q.2))
                  else if e = 125 then some (.cons kp.1 vp.1 .nil, r3)
                  else none
            else none
      else none
end

/-- Whole-document JSON.parse: one value, then only trailing whitespace.
Modelling restrictions versus the JavaScript built-in: numbers are limited to
the integer grammar (no fractions or exponents, no leading-zero rejection);
these cases are exercised by none of the code paths under verification. -/
def jsonParse (s : JSStr) : Option JSValue :=
  match parseJSONVal (2 * s.length + 2) s with
  | some (v, r) => if jsonSkipWs r = [] then some v else none
  | none => none

/-- Embeds JSON.stringify for our value type. -/
def jsonStringify (v : JSValue) : JSStr := printJSON v

/-- Remainders that cannot extend a decimal digit run. -/
def numStop : JSStr → Bool
  | [] => true
  | c :: _ => !(isDigitCU c)

/-! ## Round-trip: sizes and heads -/

mutual
/-- Fuel requirement of a value for the parser round-trip. -/
def sizeVal : JSValue → Nat
  | .null => 1
  | .bool _ => 1
  | .num _ => 1
  | .str _ => 1
  | .arr xs => 1 + sizeArr xs
  | .obj fs => 1 + sizeObj fs
/-- Fuel requirement of an array spine. -/
def sizeArr : JSArr → Nat
  | .nil => 1
  | .cons v tl => 1 + sizeVal v + sizeArr tl
/-- Fuel requirement of an object spine. -/
def sizeObj : JSObj → Nat
  | .nil => 1
  | .cons _ v tl => 1 + sizeVal v + sizeObj tl
end

/-! ## Embedding of src/src/utils/token.ts -/

/-- JS String.prototype.split on a single separator code unit (the
`token.split('.')` call); an empty input yields one empty segment, as in JS. -/
def splitOnCUAux (sep : Nat) : JSStr → JSStr → List JSStr
  | [], acc => [acc.reverse]
  | c :: r, acc =>
    if c = sep then acc.reverse :: splitOnCUAux sep r [] else splitOnCUAux sep r (c :: acc)

/-- Split a code-unit string at every occurrence of `sep`. -/
def splitOnCU (sep : Nat) (s : JSStr) : List JSStr := splitOnCUAux sep s []

/-- ASCII whitespace stripped by the forgiving-base64 decode behind atob. -/
def isB64Ws (c : Nat) : Bool := c = 9 || c = 10 || c = 12 || c = 13 || c = 32

/-- Sextet value of a standard base64 alphabet character. -/
def b64Val (c : Nat) : Option Nat :=
  if 65 ≤ c ∧ c ≤ 90 then some (c - 65)
  else if 97 ≤ c ∧ c ≤ 122 then some (c - 71)
  else if 48 ≤ c ∧ c ≤ 57 then some (c + 4)
  else if c = 43 then some 62
  else if c = 47 then some 63
  else none

/-- Decode whitespace- and padding-free base64 text into bytes, four
characters at a time; a final fragment of two or three characters yields one
or two bytes with the spare bits discarded, and a lone final character or any
non-alphabet character fails, per the forgiving-base64 algorithm. -/
def b64Chunks : JSStr → Option (List Nat)
  | [] => some []
  | [_] => none
  | [a, b] =>
    match b64Val a, b64Val b with
    | some va, some vb => some [va * 4 + vb / 16]
    | _, _ => none
  | [a, b, c] =>
    match b64Val a, b64Val b, b64Val c with
    | some va, some vb, some vc => some [va * 4 + vb / 16, (vb % 16) * 16 + vc / 4]
    | _, _, _ => none
  | a :: b :: c :: d :: rest =>
    match b64Val a, b64Val b, b64Val c, b64Val d, b64Chunks rest with
    | some va, some vb, some vc, some vd, some bytes =>
      some ((va * 4 + vb / 16) :: ((vb % 16) * 16 + vc / 4) :: ((vc % 4) * 64 + vd) :: bytes)
    | _, _, _, _, _ => none

/-- Remove one trailing padding character. -/
def dropTrailingEq (s : JSStr) : JSStr :=
  if s.getLast? = some 61 then s.dropLast else s

/-- The atob built-in: forgiving-base64 decode to a byte list, `none` when the
input is rejected (atob throws InvalidCharacterError). -/
def atobJS (s : JSStr) : Option (List Nat) :=
  let t := s.filter (fun c => !(isB64Ws c))
  let t := if t.length % 4 = 0 then dropTrailingEq (dropTrailingEq t) else t
  if t.length % 4 = 1 then none else b64Chunks t

/-- Strict UTF-8 decoding of a byte list into UTF-16 code units (surrogate
pairs for supplementary planes); `none` models the URIError thrown by
decodeURIComponent on a malformed percent-encoded byte sequence. -/
def utf8Decode : List Nat → Option JSStr
  | [] => some []
  | b1 :: tl =>
    if b1 < 128 then (utf8Decode tl).map (fun r => b1 :: r)
    else if 194 ≤ b1 ∧ b1 ≤ 223 then
      match tl with
      | b2 :: tl2 =>
        if 128 ≤ b2 ∧ b2 ≤ 191 then
          (utf8Decode tl2).map (fun r => ((b1 - 192) * 64 + (b2 - 128)) :: r)
        else none
      | [] => none
    else if 224 ≤ b1 ∧ b1 ≤ 239 then
      match tl with
      | b2 :: b3 :: tl3 =>
        if (if b1 = 224 then 160 else 128) ≤ b2 ∧ b2 ≤ (if b1 = 237 then 159 else 191) ∧
            128 ≤ b3 ∧ b3 ≤ 191 then
          (utf8Decode tl3).map (fun r => ((b1 - 224) * 4096 + (b2 - 128) * 64 + (b3 - 128)) :: r)
        else none
      | _ => none
    else if 240 ≤ b1 ∧ b1 ≤ 244 then
      match tl with
      | b2 :: b3 :: b4 :: tl4 =>
        if (if b1 = 240 then 144 else 128) ≤ b2 ∧ b2 ≤ (if b1 = 244 then 143 else 191) ∧
            128 ≤ b3 ∧ b3 ≤ 191 ∧ 128 ≤ b4 ∧ b4 ≤ 191 then
          (utf8Decode tl4).map (fun r =>
            (55296 + ((b1 - 240) * 262144 + (b2 - 128) * 4096 + (b3 - 128) * 64 + (b4 - 128)
              - 65536) / 1024) ::
            (56320 + ((b1 - 240) * 262144 + (b2 - 128) * 4096 + (b3 - 128) * 64 + (b4 - 128)
              - 65536) % 1024) :: r)
        else none
      | _ => none
    else none

/-- The base64url-to-base64 character fixup: the two regex replaces turning
minus into plus and underscore into slash. -/
def b64urlFix (c : Nat) : Nat := if c = 45 then 43 else if c = 95 then 47 else c

/-- Embeds parseJwtPayload (src/src/utils/token.ts lines 68-82): split the
token on the dot, take segment 1, base64url→base64 character fixup, atob,
then the percent-encoding/decodeURIComponent idiom — equivalent to strict
UTF-8 decoding of the byte string — and finally JSON.parse. Every exception
path of the try block yields JS null (JSValue.null). The parsed value is
returned unchanged, whatever shape it has; a JSON `null` document also
returns JS null. -/
def parseJwtPayload (token : JSStr) : JSValue :=
  match (splitOnCU 46 token).get? 1 with
  | none => .null
  | some base64Url =>
    let base64 := base64Url.map b64urlFix
    match atobJS base64 with
    | none => .null
    | some bytes =>
      match utf8Decode bytes with
      | none => .null
      | some jsonPayload =>
        match jsonParse jsonPayload with
        | some v => v
        | none => .null

/-- Numeric value of a JS string under the Number coercion: a trimmed empty string is 0, an optionally signed digit
string is its value; other shapes are not needed by any verified path and
conservatively map to `none` (NaN). -/
def strToNumberJS (s : JSStr) : Option Int :=
  let t := (s.dropWhile isJsonWs).reverse.dropWhile isJsonWs |>.reverse
  match t with
  | [] => some 0
  | 45 :: ds => if ds ≠ [] ∧ ds.all isDigitCU then some (-(digitsToNat ds : Int)) else none
  | 43 :: ds => if ds ≠ [] ∧ ds.all isDigitCU then some ((digitsToNat ds : Int)) else none
  | ds => if ds.all isDigitCU then some ((digitsToNat ds : Int)) else none

/-- The implicit ToNumber coercion in `(payload.exp as number) * 1000`;
`none` models NaN (every comparison against NaN is false). Object and array
coercions are outside the verified scope and conservatively map to NaN. -/
def jsToNumber : JSValue → Option Int
  | .null => some 0
  | .bool b => some (if b then 1 else 0)
  | .num n => some n
  | .str s => strToNumberJS s
  | .arr _ => none
  | .obj _ => none

/-- Embeds isTokenExpiringSoon (src/src/utils/token.ts lines 87-99). `now`
abstracts Date.now() in milliseconds; the default threshold is 5 minutes.
Returns true when the payload is unusable (fail-closed), otherwise compares
`exp * 1000 - now` against the threshold in milliseconds. -/
def isTokenExpiringSoon (token : JSStr) (now : Int) (minutesThreshold : Int := 5) : Bool :=
  let payload := parseJwtPayload token
  if !payload.truthy then true
  else
    match payload.get (jstr "exp") with
    | none => true
    | some expVal =>
      if !expVal.truthy then true
      else
        match jsToNumber expVal with
        | some e => decide (e * 1000 - now < minutesThreshold * 60 * 1000)
        | none => false

/-! ## Embedding of the auth store (src/src/router/guards.ts, useAuthStore) -/

/-- The TokenPair record of the src types: both token strings plus expiry fields. -/
structure TokenPair where
  accessToken : JSStr
  refreshToken : JSStr
  expiresIn : Int
  refreshExpiresIn : Int
deriving DecidableEq

/-- The localStorage slice owned by the auth layer: the three session entries
(STORAGE_KEYS.ACCESS_TOKEN, STORAGE_KEYS.REFRESH_TOKEN, STORAGE_KEYS.USER_INFO);
`none` models an absent key. -/
structure Store where
  accessToken : Option JSStr
  refreshToken : Option JSStr
  userInfo : Option JSStr
deriving DecidableEq

/-- Truthiness of a localStorage.getItem result (null or empty string is falsy). -/
def truthyStr : Option JSStr → Bool
  | none => false
  | some s => s ≠ []

/-- The in-memory auth store state plus the persisted slice it manages:
user.value (JS null modelled as JSValue.null), tokens.value, error.value,
pendingAdmins.value, and localStorage. -/
structure AuthState where
  user : JSValue
  tokens : Option TokenPair
  errMsg : Option JSStr
  pendingAdmins : List JSValue
  store : Store
deriving DecidableEq

/-- Embeds the isAuthenticated getter: `!!user.value && !!tokens.value`. -/
def isAuthenticated (st : AuthState) : Bool := st.user.truthy && st.tokens.isSome

/-- Embeds clearAuthData (guards.ts store lines 607-617): nulls the four
in-memory refs and removes the three session keys from localStorage. -/
def clearAuthData (_st : AuthState) : AuthState :=
  { user := .null
    tokens := none
    errMsg := none
    pendingAdmins := []
    store := { accessToken := none, refreshToken := none, userInfo := none } }

/-- Embeds initAuth (guards.ts store lines 392-411): read the three entries;
when all are truthy, install the parsed user and a token pair whose expiry
fields are reset to zero; a JSON.parse failure lands in the catch, which
calls clearAuthData; otherwise the state is untouched. -/
def initAuth (st : AuthState) : AuthState :=
  if truthyStr st.store.userInfo ∧ truthyStr st.store.accessToken ∧
      truthyStr st.store.refreshToken then
    match st.store.userInfo, st.store.accessToken, st.store.refreshToken with
    | some su, some sa, some sr =>
      match jsonParse su with
      | some u =>
        { st with
          user := u
          tokens := some { accessToken := sa
                           refreshToken := sr
                           expiresIn := 0
                           refreshExpiresIn := 0 } }
      | none => clearAuthData st
    | _, _, _ => st
  else st

/-- Errors thrown by the session-mutating operations. -/
inductive AuthErr where
  | noRefreshToken
  | refreshFailed
  | loginFailed
deriving DecidableEq

/-- The data of a successful login response: `{ user, tokens }`. -/
structure LoginResponseData where
  user : JSValue
  tokens : TokenPair
deriving DecidableEq

/-- Embeds login (guards.ts store lines 416-443): on success install user and
tokens in memory and persist the three entries (user serialized with
JSON.stringify); on failure record the error message and rethrow. `net` is
the network outcome of the login endpoint. -/
def login (st : AuthState) (net : Option LoginResponseData) : AuthState × Option AuthErr :=
  match net with
  | some resp =>
    ({ st with
       user := resp.user
       tokens := some resp.tokens
       errMsg := none
       store := { userInfo := some (jsonStringify resp.user)
                  accessToken := some resp.tokens.accessToken
                  refreshToken := some resp.tokens.refreshToken } }, none)
  | none => ({ st with errMsg := some (jstr "login failed") }, some .loginFailed)

/-- Embeds refreshToken (guards.ts store lines 468-492). A missing or falsy
refresh token throws before the try block, leaving every ref and storage
entry untouched. Otherwise `net` is the refresh endpoint outcome: on success
the pair is replaced wholesale in memory and both token entries are
rewritten in storage; on failure the catch records the message, clearAuthData
wipes memory and storage (also resetting the message), and the error is
rethrown. -/
def refreshToken (st : AuthState) (net : Option TokenPair) : AuthState × Option AuthErr :=
  match st.tokens with
  | none => (st, some .noRefreshToken)
  | some tp =>
    if tp.refreshToken = [] then (st, some .noRefreshToken)
    else
      match net with
      | some newTokens =>
        ({ st with
           tokens := some newTokens
           store := { st.store with
                      accessToken := some newTokens.accessToken
                      refreshToken := some newTokens.refreshToken } }, none)
      | none => (clearAuthData st, some .refreshFailed)

/-- Embeds logout (guards.ts store lines 497-516). The revocation endpoint is
called only when a truthy refresh token exists; `netFails` is whether that
call rejects — the catch only logs it, and the finally block runs
clearAuthData unconditionally, so the result does not depend on `netFails`
and no error is ever propagated (the second component is always none). -/
def logout (st : AuthState) (netFails : Bool) : AuthState × Option AuthErr :=
  (clearAuthData { st with errMsg := none }, none)

/-- Whether logout issues the revocation call (the `if` around the POST). -/
def logoutCallsRevocation (st : AuthState) : Bool :=
  match st.tokens with
  | some tp => tp.refreshToken ≠ []
  | none => false

/-! ## Embedding of the transport pipeline (src/src/services/http.ts) -/

/-- Resolution of one logical request as seen by the caller of httpClient. -/
inductive ReqOutcome where
  | success (status : Nat)
  | httpError (status : Nat)
  | noRefreshTokenError
  | refreshError
deriving DecidableEq

/-- State and bookkeeping after the interceptor protocol finishes a request. -/
structure PipelineResult where
  outcome : ReqOutcome
  store : Store
  location : Option JSStr
  refreshCalls : Nat
  attempts : Nat
deriving DecidableEq

/-- Embeds the response interceptor (http.ts lines 32-83) for one logical
request. `retry` is the `_retry` flag on the request config; `statuses` lists
the HTTP status of each successive attempt (head = next attempt);
`refreshNet` is the outcome of the refresh endpoint when called. A 2xx
resolves; a 401 on an un-retried config sets `_retry`, reads the refresh
token from storage, and either rejects through the catch (cleared storage,
redirect to /login) when the token is missing, rejects likewise when the
refresh call fails, or writes the new tokens, reattaches the header, and
resubmits the original request once; any other error, and a 401 on a
retried config, is rejected unchanged. -/
def runRequest (store : Store) (retry : Bool) (statuses : List Nat)
    (refreshNet : Option TokenPair) : PipelineResult :=
  match statuses with
  | [] =>
    { outcome := .httpError 0
      store := store
      location := none
      refreshCalls := 0
      attempts := 0 }
  | s :: rest =>
    if 200 ≤ s ∧ s < 300 then
      { outcome := .success s
        store := store
        location := none
        refreshCalls := 0
        attempts := 1 }
    else if s = 401 ∧ retry = false then
      if truthyStr store.refreshToken then
        match refreshNet with
        | some tokens =>
          let store1 := { store with
                          accessToken := some tokens.accessToken
                          refreshToken := some tokens.refreshToken }
          let r := runRequest store1 true rest refreshNet
          { r with
            refreshCalls := r.refreshCalls + 1
            attempts := r.attempts + 1 }
        | none =>
          { outcome := .refreshError
            store := { accessToken := none, refreshToken := none, userInfo := none }
            location := some (jstr "/login")
            refreshCalls := 1
            attempts := 1 }
      else
        { outcome := .noRefreshTokenError
          store := { accessToken := none, refreshToken := none, userInfo := none }
          location := some (jstr "/login")
          refreshCalls := 0
          attempts := 1 }
    else
      { outcome := .httpError s
        store := store
        location := none
        refreshCalls := 0
        attempts := 1 }

/-- What the synchronous prefix of one interceptor invocation does before any
await resolves. -/
inductive InterceptAction where
  | issuesRefresh (refreshTok : JSStr)
  | cleanupAndReject
  | passThrough
deriving DecidableEq

/-- Synchronous prefix of the response interceptor (http.ts lines 37-55), up
to the refresh POST: a 401 on an un-retried config reads the refresh token
and issues its own refresh call when one is present, or enters the catch
cleanup when not; anything else is rejected unchanged. http.ts keeps no
module-level refresh state — no shared promise, no in-flight flag — so when
several requests fail within the same tick, each invocation runs this prefix
independently before any refresh response resolves. -/
def interceptSyncPhase (store : Store) (status : Nat) (retry : Bool) : InterceptAction :=
  if status = 401 ∧ retry = false then
    match store.refreshToken with
    | some rt => if rt ≠ [] then .issuesRefresh rt else .cleanupAndReject
    | none => .cleanupAndReject
  else .passThrough

/-- Total number of refresh POSTs issued when the listed request failures
(status, retried-flag pairs) are all processed within the same tick. -/
def concurrentRefreshCalls (store : Store) (reqs : List (Nat × Bool)) : Nat :=
  (reqs.map (fun r => interceptSyncPhase store r.1 r.2)).countP
    (fun a => match a with | .issuesRefresh _ => true | _ => false)

/-! ## Embedding of the route guards (src/src/router/guards.ts) -/

/-- Status values of AdminUser, from the src type definitions. -/
inductive AdminStatus where
  | PENDING
  | ACTIVE
  | INACTIVE
  | REJECTED
deriving DecidableEq

/-- Route names targeted by the guards. -/
inductive RouteName where
  | Login
  | PendingApproval
  | ApplicationRejected
  | AccountInactive
  | AccountStatus
  | Forbidden
  | Dashboard
deriving DecidableEq

/-- Result of a guard invocation: `next()` or `next({name, query?})`. -/
inductive GuardDecision where
  | allow
  | redirect (name : RouteName) (redirectQuery : Option JSStr)
deriving DecidableEq

/-- Embeds statusGuard (guards.ts lines 121-164). `isAuth` is
authStore.isAuthenticated, `userStatus` is authStore.userInfo?.status (`none`
models undefined), and `toFullPath` is the navigation target, carried as the
redirect query on the Login redirect. -/
def statusGuard (isAuth : Bool) (userStatus : Option AdminStatus) (toFullPath : JSStr) :
    GuardDecision :=
  if !isAuth then .redirect .Login (some toFullPath)
  else if userStatus = some .PENDING then .redirect .PendingApproval none
  else if userStatus = some .REJECTED then .redirect .ApplicationRejected none
  else if userStatus = some .INACTIVE then .redirect .AccountInactive none
  else if userStatus ≠ some .ACTIVE then .redirect .AccountStatus none
  else .allow

/-- Truthiness of `tokens.value?.refreshToken`: the guard on refresh and on
the revocation call. -/
def memRefreshTruthy (st : AuthState) : Bool :=
  match st.tokens with
  | some tp => tp.refreshToken ≠ []
  | none => false

/-- The interceptor protocol run from a combined state: http.ts imports no
store accessor — it touches only localStorage and window.location — so the
auth store's in-memory refs pass through unchanged while the request's
storage effects apply. -/
def runRequestFromAuth (st : AuthState) (retry : Bool) (statuses : List Nat)
    (refreshNet : Option TokenPair) : AuthState × PipelineResult :=
  ({ st with store := (runRequest st.store retry statuses refreshNet).store },
   runRequest st.store retry statuses refreshNet)

/-- Whether the persisted entries restore an authenticated session: all three
entries truthy and the principal entry parses to a truthy value. -/
def storeLoadOk (s : Store) : Bool :=
  truthyStr s.userInfo && truthyStr s.accessToken && truthyStr s.refreshToken &&
    (match s.userInfo with
     | some su =>
       match jsonParse su with
       | some u => u.truthy
       | none => false
     | none => false)

/-- Shape test: is the JS value an object (a map)? -/
def isObjJS : JSValue → Bool
  | .obj _ => true
  | _ => false

/-! ## Round-trip lemmas: decimal digits -/

theorem printNatAux_eq : ∀ (fuel n : Nat) (acc : JSStr), n ≤ fuel →
    printNatAux fuel n acc = printNatSpec n ++ acc := by
  intro fuel
  induction fuel with
  | zero =>
    intro n acc h
    have hn : n = 0 := by omega
    subst hn
    simp [printNatAux, printNatSpec]
  | succ f ih =>
    intro n acc h
    by_cases h10 : n < 10
    · rw [printNatAux, if_pos h10, printNatSpec, if_pos h10]
      simp
    · rw [printNatAux, if_neg h10, printNatSpec, if_neg h10]
      rw [ih (n / 10) _ (by omega)]
      simp

theorem printNatCU_eq (n : Nat) : printNatCU n = printNatSpec n := by
  rw [printNatCU, printNatAux_eq n n [] (le_refl n)]
  simp

theorem printNatSpec_digits (n : Nat) : ∀ c ∈ printNatSpec n, isDigitCU c = true := by
  induction n using Nat.strong_induction_on with
  | _ n ih =>
    intro c hc
    rw [printNatSpec] at hc
    by_cases h10 : n < 10
    · rw [if_pos h10] at hc
      simp at hc
      subst hc
      simp [isDigitCU]
      omega
    · rw [if_neg h10] at hc
      rw [List.mem_append] at hc
      rcases hc with hc | hc
      · exact ih (n / 10) (Nat.div_lt_self (by omega) (by omega)) c hc
      · simp at hc
        subst hc
        simp [isDigitCU]
        omega

theorem printNatSpec_ne_nil (n : Nat) : printNatSpec n ≠ [] := by
  rw [printNatSpec]
  by_cases h10 : n < 10
  · simp [h10]
  · simp [h10]

theorem digitsToNat_append (l : JSStr) (d : Nat) :
    digitsToNat (l ++ [d]) = digitsToNat l * 10 + (d - 48) := by
  simp [digitsToNat, List.foldl_append]

theorem digitsToNat_printNatSpec (n : Nat) : digitsToNat (printNatSpec n) = n := by
  induction n using Nat.strong_induction_on with
  | _ n ih =>
    rw [printNatSpec]
    by_cases h10 : n < 10
    · rw [if_pos h10]
      simp [digitsToNat]
      omega
    · rw [if_neg h10, digitsToNat_append, ih (n / 10) (Nat.div_lt_self (by omega) (by omega))]
      omega

/-! ## Round-trip lemmas: digit runs -/

theorem digitRun_stop {s : JSStr} (h : numStop s = true) : digitRun s = ([], s) := by
  match s with
  | [] => rfl
  | c :: t =>
    simp [numStop] at h
    simp [digitRun, h]

theorem digitRun_append (ds : JSStr) (hds : ∀ d ∈ ds, isDigitCU d = true)
    {rest : JSStr} (hrest : numStop rest = true) :
    digitRun (ds ++ rest) = (ds, rest) := by
  induction ds with
  | nil => simpa using digitRun_stop hrest
  | cons c t ih =>
    have hc : isDigitCU c = true := hds c (by simp)
    have ht := ih (fun d hd => hds d (by simp [hd]))
    simp [digitRun, hc, ht]

/-! ## Round-trip lemmas: string bodies -/

theorem hexValCU_hexDigitCU (n : Nat) (h : n < 16) :
    hexValCU (hexDigitCU n) = n ∧ isHexCU (hexDigitCU n) = true := by
  interval_cases n <;> simp [hexValCU, hexDigitCU, isHexCU]

theorem parseStringBody_escape (c : Nat) (rest : JSStr) :
    parseStringBody (escapeUnit c ++ rest) =
      (parseStringBody rest).map (fun p => (c :: p.1, p.2)) := by
  rw [escapeUnit]
  by_cases h34 : c = 34
  · subst h34
    rw [if_pos rfl, List.cons_append, List.cons_append, List.nil_append,
      parseStringBody.eq_def]
    simp [escCodeOf]
  rw [if_neg h34]
  by_cases h92 : c = 92
  · subst h92
    rw [if_pos rfl, List.cons_append, List.cons_append, List.nil_append,
      parseStringBody.eq_def]
    simp [escCodeOf]
  rw [if_neg h92]
  by_cases h8 : c = 8
  · subst h8
    rw [if_pos rfl, List.cons_append, List.cons_append, List.nil_append,
      parseStringBody.eq_def]
    simp [escCodeOf]
  rw [if_neg h8]
  by_cases h9 : c = 9
  · subst h9
    rw [if_pos rfl, List.cons_append, List.cons_append, List.nil_append,
      parseStringBody.eq_def]
    simp [escCodeOf]
  rw [if_neg h9]
  by_cases h10 : c = 10
  · subst h10
    rw [if_pos rfl, List.cons_append, List.cons_append, List.nil_append,
      parseStringBody.eq_def]
    simp [escCodeOf]
  rw [if_neg h10]
  by_cases h12 : c = 12
  · subst h12
    rw [if_pos rfl, List.cons_append, List.cons_append, List.nil_append,
      parseStringBody.eq_def]
    simp [escCodeOf]
  rw [if_neg h12]
  by_cases h13 : c = 13
  · subst h13
    rw [if_pos rfl, List.cons_append, List.cons_append, List.nil_append,
      parseStringBody.eq_def]
    simp [escCodeOf]
  rw [if_neg h13]
  by_cases hlt : c < 32
  · rw [if_pos hlt]
    have hhi := hexValCU_hexDigitCU (c / 16) (by omega)
    have hlo := hexValCU_hexDigitCU (c % 16) (by omega)
    have hval : ((hexValCU 48 * 16 + hexValCU 48) * 16 + hexValCU (hexDigitCU (c / 16))) * 16
        + hexValCU (hexDigitCU (c % 16)) = c := by
      rw [hhi.1, hlo.1]
      have h48 : hexValCU 48 = 0 := by simp [hexValCU]
      rw [h48]
      omega
    simp only [List.cons_append, List.nil_append]
    rw [parseStringBody.eq_def]
    simp only []
    norm_num
    rw [if_pos ⟨⟨by decide, hhi.2⟩, hlo.2⟩, hval]
  · rw [if_neg hlt]
    simp only [List.cons_append, List.nil_append]
    rw [parseStringBody.eq_def]
    simp [h34, h92, hlt]

theorem parseStringBody_print (s : JSStr) : ∀ rest : JSStr,
    parseStringBody (printStringBody s ++ rest) = some (s, rest) := by
  induction s with
  | nil =>
    intro rest
    rw [printStringBody, List.cons_append, List.nil_append, parseStringBody.eq_def]
    simp
  | cons c t ih =>
    intro rest
    rw [printStringBody, List.append_assoc, parseStringBody_escape, ih]
    rfl

theorem printNatSpec_cons (n : Nat) :
    ∃ c t, printNatSpec n = c :: t ∧ isDigitCU c = true := by
  match h : printNatSpec n with
  | [] => exact absurd h (printNatSpec_ne_nil n)
  | c :: t =>
    refine ⟨c, t, rfl, printNatSpec_digits n c ?_⟩
    rw [h]
    simp

theorem digit_facts {c : Nat} (h : isDigitCU c = true) :
    isJsonWs c = false ∧ c ≠ 110 ∧ c ≠ 116 ∧ c ≠ 102 ∧ c ≠ 34 ∧ c ≠ 91 ∧ c ≠ 123 ∧
      c ≠ 45 ∧ c ≠ 93 ∧ c ≠ 125 ∧ c ≠ 44 := by
  simp [isDigitCU] at h
  simp [isJsonWs]
  omega

theorem printJSON_head (v : JSValue) :
    ∃ c r, printJSON v = c :: r ∧ isJsonWs c = false ∧ c ≠ 93 ∧ c ≠ 125 := by
  cases v with
  | null => exact ⟨110, _, rfl, by decide, by decide, by decide⟩
  | bool b =>
    cases b with
    | true => exact ⟨116, _, rfl, by decide, by decide, by decide⟩
    | false => exact ⟨102, _, rfl, by decide, by decide, by decide⟩
  | num n =>
    rw [printJSON, printIntCU]
    by_cases hneg : n < 0
    · exact ⟨45, _, by rw [if_pos hneg], by decide, by decide, by decide⟩
    · obtain ⟨c, t, hct, hcd⟩ := printNatSpec_cons n.natAbs
      obtain ⟨hws, -, -, -, -, -, -, -, h93, h125, -⟩ := digit_facts hcd
      exact ⟨c, t, by rw [if_neg hneg, printNatCU_eq, hct], hws, h93, h125⟩
  | str s => exact ⟨34, _, rfl, by decide, by decide, by decide⟩
  | arr xs => exact ⟨91, _, rfl, by decide, by decide, by decide⟩
  | obj fs => exact ⟨123, _, rfl, by decide, by decide, by decide⟩

theorem printElems_cons_head (v : JSValue) (tl : JSArr) :
    ∃ c r, printElems (.cons v tl) = c :: r ∧ isJsonWs c = false ∧ c ≠ 93 := by
  obtain ⟨c, r, hcr, hws, h93, h125⟩ := printJSON_head v
  cases tl with
  | nil => exact ⟨c, r ++ [93], by rw [printElems, hcr]; rfl, hws, h93⟩
  | cons w tl2 =>
    exact ⟨c, r ++ 44 :: printElems (.cons w tl2), by rw [printElems, hcr]; rfl, hws, h93⟩

/-! ## The parser inverts the printer -/

theorem jsonSkipWs_pass {c : Nat} (h : isJsonWs c = false) (r : JSStr) :
    jsonSkipWs (c :: r) = c :: r := by
  rw [jsonSkipWs]
  simp [h]

mutual
theorem parseJSONVal_print : ∀ (v : JSValue) (fuel : Nat) (rest : JSStr),
    sizeVal v ≤ fuel → numStop rest = true →
    parseJSONVal fuel (printJSON v ++ rest) = some (v, rest)
  | .null, fuel, rest, hf, _ => by
    obtain ⟨f, rfl⟩ : ∃ f, fuel = f + 1 := ⟨fuel - 1, by simp [sizeVal] at hf; omega⟩
    rw [printJSON, parseJSONVal]
    simp [jsonSkipWs, isJsonWs, expectUnits]
  | .bool true, fuel, rest, hf, _ => by
    obtain ⟨f, rfl⟩ : ∃ f, fuel = f + 1 := ⟨fuel - 1, by simp [sizeVal] at hf; omega⟩
    rw [printJSON, parseJSONVal]
    simp [jsonSkipWs, isJsonWs, expectUnits]
  | .bool false, fuel, rest, hf, _ => by
    obtain ⟨f, rfl⟩ : ∃ f, fuel = f + 1 := ⟨fuel - 1, by simp [sizeVal] at hf; omega⟩
    rw [printJSON, parseJSONVal]
    simp [jsonSkipWs, isJsonWs, expectUnits]
  | .num n, fuel, rest, hf, hr => by
    obtain ⟨f, rfl⟩ : ∃ f, fuel = f + 1 := ⟨fuel - 1, by simp [sizeVal] at hf; omega⟩
    rw [printJSON, printIntCU]
    by_cases hneg : n < 0
    · rw [if_pos hneg, printNatCU_eq, List.cons_append, parseJSONVal,
        jsonSkipWs_pass (by decide)]
      have hdr := digitRun_append (printNatSpec n.natAbs) (printNatSpec_digits n.natAbs) hr
      simp [hdr, printNatSpec_ne_nil, digitsToNat_printNatSpec]
      rw [Int.abs_eq_natAbs]
      omega
    · rw [if_neg hneg, printNatCU_eq]
      obtain ⟨c, t, hct, hcd⟩ := printNatSpec_cons n.natAbs
      obtain ⟨hws, h110, h116, h102, h34, h91, h123, h45, -, -, -⟩ := digit_facts hcd
      have hdr : digitRun (c :: (t ++ rest)) = (c :: t, rest) := by
        have := digitRun_append (c :: t) (by rw [← hct]; exact printNatSpec_digits n.natAbs) hr
        simpa using this
      have hv : digitsToNat (c :: t) = n.natAbs := by rw [← hct, digitsToNat_printNatSpec]
      rw [hct, List.cons_append, parseJSONVal, jsonSkipWs_pass hws]
      simp [h110, h116, h102, h34, h91, h123, h45, hcd, hdr, hv]
      omega
  | .str s, fuel, rest, hf, _ => by
    obtain ⟨f, rfl⟩ : ∃ f, fuel = f + 1 := ⟨fuel - 1, by simp [sizeVal] at hf; omega⟩
    rw [printJSON, printString, List.cons_append, parseJSONVal, jsonSkipWs_pass (by decide)]
    simp [parseStringBody_print]
  | .arr .nil, fuel, rest, hf, _ => by
    obtain ⟨f, rfl⟩ : ∃ f, fuel = f + 1 := ⟨fuel - 1, by simp [sizeVal, sizeArr] at hf; omega⟩
    rw [printJSON, printElems, parseJSONVal]
    simp [jsonSkipWs, isJsonWs]
  | .arr (.cons v tl), fuel, rest, hf, _ => by
    obtain ⟨f, rfl⟩ : ∃ f, fuel = f + 1 := ⟨fuel - 1, by simp [sizeVal, sizeArr] at hf; omega⟩
    obtain ⟨c, r, hcr, hws, h93⟩ := printElems_cons_head v tl
    have hskip : jsonSkipWs (printElems (.cons v tl) ++ rest) = c :: (r ++ rest) := by
      rw [hcr, List.cons_append, jsonSkipWs_pass hws]
    have helems : parseJSONElems f (c :: (r ++ rest)) = some (.cons v tl, rest) := by
      rw [← List.cons_append, ← hcr]
      exact parseJSONElems_print v tl f rest (by simp [sizeVal, sizeArr] at hf ⊢; omega)
    rw [printJSON, List.cons_append, parseJSONVal, jsonSkipWs_pass (by decide)]
    simp [hskip, h93, helems]
  | .obj .nil, fuel, rest, hf, _ => by
    obtain ⟨f, rfl⟩ : ∃ f, fuel = f + 1 := ⟨fuel - 1, by simp [sizeVal, sizeObj] at hf; omega⟩
    rw [printJSON, printFields, parseJSONVal]
    simp [jsonSkipWs, isJsonWs]
  | .obj (.cons k v tl), fuel, rest, hf, _ => by
    obtain ⟨f, rfl⟩ : ∃ f, fuel = f + 1 := ⟨fuel - 1, by simp [sizeVal, sizeObj] at hf; omega⟩
    have hhd : ∃ r0, printFields (.cons k v tl) = 34 :: r0 := by
      cases tl with
      | nil => exact ⟨_, by rw [printFields, printString]; rfl⟩
      | cons k2 v2 tl2 => exact ⟨_, by rw [printFields, printString]; rfl⟩
    obtain ⟨r0, hr0⟩ := hhd
    have hskip : jsonSkipWs (printFields (.cons k v tl) ++ rest) = 34 :: (r0 ++ rest) := by
      rw [hr0, List.cons_append, jsonSkipWs_pass (by decide)]
    have hfields : parseJSONFields f (34 :: (r0 ++ rest)) = some (.cons k v tl, rest) := by
      rw [← List.cons_append, ← hr0]
      exact parseJSONFields_print k v tl f rest (by simp [sizeVal, sizeObj] at hf ⊢; omega)
    rw [printJSON, List.cons_append, parseJSONVal, jsonSkipWs_pass (by decide)]
    simp [hskip, hfields]
termination_by v fuel rest hf hr => sizeVal v
decreasing_by
  all_goals simp only [sizeVal, sizeArr, sizeObj]
  all_goals omega
theorem parseJSONElems_print : ∀ (v : JSValue) (tl : JSArr) (fuel : Nat) (rest : JSStr),
    sizeArr (.cons v tl) ≤ fuel →
    parseJSONElems fuel (printElems (.cons v tl) ++ rest) = some (.cons v tl, rest)
  | v, .nil, fuel, rest, hf => by
    obtain ⟨f, rfl⟩ : ∃ f, fuel = f + 1 := ⟨fuel - 1, by simp [sizeArr] at hf; omega⟩
    have h1 : parseJSONVal f (printJSON v ++ 93 :: rest) = some (v, 93 :: rest) :=
      parseJSONVal_print v f (93 :: rest) (by simp [sizeArr] at hf ⊢; omega) rfl
    rw [printElems, parseJSONElems]
    simp [h1, jsonSkipWs, isJsonWs]
  | v, .cons w tl2, fuel, rest, hf => by
    obtain ⟨f, rfl⟩ : ∃ f, fuel = f + 1 := ⟨fuel - 1, by simp [sizeArr] at hf; omega⟩
    have h1 : parseJSONVal f (printJSON v ++ 44 :: (printElems (.cons w tl2) ++ rest)) =
        some (v, 44 :: (printElems (.cons w tl2) ++ rest)) :=
      parseJSONVal_print v f (44 :: (printElems (.cons w tl2) ++ rest))
        (by simp [sizeArr] at hf ⊢; omega) rfl
    have h2 := parseJSONElems_print w tl2 f rest (by simp [sizeArr] at hf ⊢; omega)
    rw [printElems, parseJSONElems]
    simp [h1, h2, jsonSkipWs, isJsonWs]
termination_by v tl fuel rest hf => sizeVal v + sizeArr tl + 1
decreasing_by
  all_goals simp only [sizeVal, sizeArr, sizeObj]
  all_goals omega
theorem parseJSONFields_print : ∀ (k : JSStr) (v : JSValue) (tl : JSObj) (fuel : Nat)
      (rest : JSStr), sizeObj (.cons k v tl) ≤ fuel →
    parseJSONFields fuel (printFields (.cons k v tl) ++ rest) = some (.cons k v tl, rest)
  | k, v, .nil, fuel, rest, hf => by
    obtain ⟨f, rfl⟩ : ∃ f, fuel = f + 1 := ⟨fuel - 1, by simp [sizeObj] at hf; omega⟩
    have h1 : parseJSONVal f (printJSON v ++ 125 :: rest) = some (v, 125 :: rest) :=
      parseJSONVal_print v f (125 :: rest) (by simp [sizeObj] at hf ⊢; omega) rfl
    rw [printFields, printString, parseJSONFields]
    simp [parseStringBody_print, h1, jsonSkipWs, isJsonWs]
  | k, v, .cons k2 v2 tl2, fuel, rest, hf => by
    obtain ⟨f, rfl⟩ : ∃ f, fuel = f + 1 := ⟨fuel - 1, by simp [sizeObj] at hf; omega⟩
    have h1 : parseJSONVal f (printJSON v ++ 44 :: (printFields (.cons k2 v2 tl2) ++ rest)) =
        some (v, 44 :: (printFields (.cons k2 v2 tl2) ++ rest)) :=
      parseJSONVal_print v f (44 :: (printFields (.cons k2 v2 tl2) ++ rest))
        (by simp [sizeObj] at hf ⊢; omega) rfl
    have h2 := parseJSONFields_print k2 v2 tl2 f rest (by simp [sizeObj] at hf ⊢; omega)
    rw [printFields, printString, parseJSONFields]
    simp [parseStringBody_print, h1, h2, jsonSkipWs, isJsonWs]
termination_by k v tl fuel rest hf => sizeVal v + sizeObj tl + 1
decreasing_by
  all_goals simp only [sizeVal, sizeArr, sizeObj]
  all_goals omega
end

/-! ## Top-level round-trip -/

theorem printIntCU_ne_nil (i : Int) : printIntCU i ≠ [] := by
  rw [printIntCU]
  by_cases h : i < 0
  · simp [h]
  · simp [h, printNatCU_eq, printNatSpec_ne_nil]

mutual
theorem sizeVal_le : ∀ v : JSValue, sizeVal v ≤ 2 * (printJSON v).length
  | .null => by simp [sizeVal, printJSON]
  | .bool true => by simp [sizeVal, printJSON]
  | .bool false => by simp [sizeVal, printJSON]
  | .num n => by
    have h := printIntCU_ne_nil n
    have : 0 < (printIntCU n).length := List.length_pos.mpr h
    simp [sizeVal, printJSON]
    omega
  | .str s => by
    simp [sizeVal, printJSON, printString]
    omega
  | .arr xs => by
    have h := sizeArr_le xs
    simp [sizeVal, printJSON] at h ⊢
    omega
  | .obj fs => by
    have h := sizeObj_le fs
    simp [sizeVal, printJSON] at h ⊢
    omega
termination_by v => sizeVal v
decreasing_by
  all_goals simp only [sizeVal, sizeArr, sizeObj]
  all_goals omega
theorem sizeArr_le : ∀ xs : JSArr, sizeArr xs ≤ 2 * (printElems xs).length
  | .nil => by simp [sizeArr, printElems]
  | .cons v .nil => by
    have h := sizeVal_le v
    simp [sizeArr, printElems]
    omega
  | .cons v (.cons w tl) => by
    have h1 := sizeVal_le v
    have h2 := sizeArr_le (.cons w tl)
    simp [sizeArr, printElems] at h2 ⊢
    omega
termination_by xs => sizeArr xs
decreasing_by
  all_goals simp only [sizeVal, sizeArr, sizeObj]
  all_goals omega
theorem sizeObj_le : ∀ fs : JSObj, sizeObj fs ≤ 2 * (printFields fs).length
  | .nil => by simp [sizeObj, printFields]
  | .cons k v .nil => by
    have h := sizeVal_le v
    simp [sizeObj, printFields, printString]
    omega
  | .cons k v (.cons k2 v2 tl) => by
    have h1 := sizeVal_le v
    have h2 := sizeObj_le (.cons k2 v2 tl)
    simp [sizeObj, printFields, printString] at h2 ⊢
    omega
termination_by fs => sizeObj fs
decreasing_by
  all_goals simp only [sizeVal, sizeArr, sizeObj]
  all_goals omega
end

/-- Parsing inverts printing: JSON.parse of JSON.stringify returns the value. -/
theorem jsonParse_stringify (v : JSValue) : jsonParse (jsonStringify v) = some v := by
  have hsz : sizeVal v ≤ 2 * (printJSON v).length + 2 := le_trans (sizeVal_le v) (by omega)
  have h : parseJSONVal (2 * (printJSON v).length + 2) (printJSON v) = some (v, []) := by
    have := parseJSONVal_print v (2 * (printJSON v).length + 2) [] hsz rfl
    simpa using this
  rw [jsonStringify, jsonParse]
  simp [h, jsonSkipWs]

/-! ## Claim theorems -/

/-- C5: for every authenticated session whose principal has a non-ACTIVE
status, statusGuard redirects to the status-specific destination — PENDING to
the pending-approval page, REJECTED to the rejected page, and any other
non-ACTIVE status (INACTIVE) to the inactive page — while an ACTIVE principal
is allowed through. -/
theorem status_guard_destinations (s : AdminStatus) (path : JSStr) :
    (s = .PENDING → statusGuard true (some s) path = .redirect .PendingApproval none) ∧
    (s = .REJECTED → statusGuard true (some s) path = .redirect .ApplicationRejected none) ∧
    (s ≠ .PENDING → s ≠ .REJECTED → s ≠ .ACTIVE →
      statusGuard true (some s) path = .redirect .AccountInactive none) ∧
    (s = .ACTIVE → statusGuard true (some s) path = .allow) := by
  cases s <;> simp [statusGuard]

theorem status_guard_destinations_witness :
    statusGuard true (some .INACTIVE) (jstr "/dashboard") = .redirect .AccountInactive none ∧
    statusGuard true (some .PENDING) (jstr "/dashboard") = .redirect .PendingApproval none ∧
    statusGuard true (some .ACTIVE) (jstr "/dashboard") = .allow :=
  ⟨(status_guard_destinations .INACTIVE (jstr "/dashboard")).2.2.1
      (by decide) (by decide) (by decide),
   (status_guard_destinations .PENDING (jstr "/dashboard")).1 rfl,
   (status_guard_destinations .ACTIVE (jstr "/dashboard")).2.2.2 rfl⟩

/-- C9: for every session state and every outcome of the revocation call,
logout propagates no failure, leaves the session unauthenticated with both
in-memory refs cleared, and removes all three persisted entries. -/
theorem logout_unconditional_cleanup (st : AuthState) (netFails : Bool) :
    (logout st netFails).2 = none ∧
    isAuthenticated (logout st netFails).1 = false ∧
    (logout st netFails).1.user = .null ∧
    (logout st netFails).1.tokens = none ∧
    (logout st netFails).1.store.accessToken = none ∧
    (logout st netFails).1.store.refreshToken = none ∧
    (logout st netFails).1.store.userInfo = none := by
  simp [logout, clearAuthData, isAuthenticated, JSValue.truthy]

/-- C6: a request whose first attempt gets a 401 is resubmitted exactly once
after a successful refresh; a second 401 on the retried attempt is surfaced
to the caller as-is, with no further refresh call and no further retry. -/
theorem retry_exactly_once_then_surface (store : Store) (rest : List Nat)
    (newTokens : TokenPair) (hrt : truthyStr store.refreshToken = true) :
    (runRequest store false (401 :: 401 :: rest) (some newTokens)).outcome =
      .httpError 401 ∧
    (runRequest store false (401 :: 401 :: rest) (some newTokens)).refreshCalls = 1 ∧
    (runRequest store false (401 :: 401 :: rest) (some newTokens)).attempts = 2 := by
  rw [runRequest]
  simp only [hrt]
  rw [runRequest]
  simp

theorem retry_exactly_once_then_surface_witness :
    truthyStr (Store.mk (some (jstr "A1")) (some (jstr "R1")) (some (jstr "u"))).refreshToken
      = true ∧
    (runRequest (Store.mk (some (jstr "A1")) (some (jstr "R1")) (some (jstr "u"))) false
      (401 :: 401 :: []) (some (TokenPair.mk (jstr "A2") (jstr "R2") 3600 7200))).outcome =
      .httpError 401 :=
  ⟨by decide,
   (retry_exactly_once_then_surface
      (Store.mk (some (jstr "A1")) (some (jstr "R1")) (some (jstr "u"))) []
      (TokenPair.mk (jstr "A2") (jstr "R2") 3600 7200) (by decide)).1⟩

/-- C10: when refresh succeeds on an authenticated session holding a refresh
token, the credential pair is replaced wholesale in memory and in the two
persisted token entries, while the in-memory principal and its persisted
entry are untouched, no error is thrown, and the session stays
authenticated. -/
theorem refresh_success_replaces_pair_frame (st : AuthState) (newTokens : TokenPair)
    (tp : TokenPair) (htp : st.tokens = some tp) (hrt : tp.refreshToken ≠ [])
    (hauth : isAuthenticated st = true) :
    (refreshToken st (some newTokens)).2 = none ∧
    (refreshToken st (some newTokens)).1.tokens = some newTokens ∧
    (refreshToken st (some newTokens)).1.store.accessToken = some newTokens.accessToken ∧
    (refreshToken st (some newTokens)).1.store.refreshToken = some newTokens.refreshToken ∧
    (refreshToken st (some newTokens)).1.user = st.user ∧
    (refreshToken st (some newTokens)).1.store.userInfo = st.store.userInfo ∧
    isAuthenticated (refreshToken st (some newTokens)).1 = true := by
  have huser : st.user.truthy = true := by
    rw [isAuthenticated, Bool.and_eq_true] at hauth
    exact hauth.1
  simp [refreshToken, htp, hrt, isAuthenticated, huser]

theorem refresh_success_replaces_pair_frame_witness :
    (refreshToken
      (AuthState.mk (.obj (.cons (jstr "id") (.str (jstr "1")) .nil))
        (some (TokenPair.mk (jstr "A1") (jstr "R1") 3600 7200)) none []
        (Store.mk (some (jstr "A1")) (some (jstr "R1")) (some (jstr "u"))))
      (some (TokenPair.mk (jstr "A2") (jstr "R2") 3600 7200))).1.tokens =
      some (TokenPair.mk (jstr "A2") (jstr "R2") 3600 7200) :=
  (refresh_success_replaces_pair_frame
    (AuthState.mk (.obj (.cons (jstr "id") (.str (jstr "1")) .nil))
      (some (TokenPair.mk (jstr "A1") (jstr "R1") 3600 7200)) none []
      (Store.mk (some (jstr "A1")) (some (jstr "R1")) (some (jstr "u"))))
    (TokenPair.mk (jstr "A2") (jstr "R2") 3600 7200)
    (TokenPair.mk (jstr "A1") (jstr "R1") 3600 7200) rfl (by decide) (by decide)).2.1

/-- C2 counterexample: a session that is authenticated but holds no refresh
token (empty string), with all three entries persisted. refreshToken throws
NoRefreshToken, as the claim says, but the state — contrary to the claim —
is fully unchanged: the session stays Authenticated and no persisted entry
is cleared. -/
theorem refresh_no_token_leaves_state :
    (refreshToken
      (AuthState.mk (.obj (.cons (jstr "id") (.str (jstr "1")) .nil))
        (some (TokenPair.mk (jstr "A1") [] 3600 7200)) none []
        (Store.mk (some (jstr "A1")) (some (jstr "R1")) (some (jstr "u")))) none).2 =
      some .noRefreshToken ∧
    (refreshToken
      (AuthState.mk (.obj (.cons (jstr "id") (.str (jstr "1")) .nil))
        (some (TokenPair.mk (jstr "A1") [] 3600 7200)) none []
        (Store.mk (some (jstr "A1")) (some (jstr "R1")) (some (jstr "u")))) none).1 =
      AuthState.mk (.obj (.cons (jstr "id") (.str (jstr "1")) .nil))
        (some (TokenPair.mk (jstr "A1") [] 3600 7200)) none []
        (Store.mk (some (jstr "A1")) (some (jstr "R1")) (some (jstr "u"))) ∧
    isAuthenticated
      ((refreshToken
        (AuthState.mk (.obj (.cons (jstr "id") (.str (jstr "1")) .nil))
          (some (TokenPair.mk (jstr "A1") [] 3600 7200)) none []
          (Store.mk (some (jstr "A1")) (some (jstr "R1")) (some (jstr "u")))) none).1) =
      true := by decide

/-- C2 amended: when no truthy refresh token is in memory, refreshToken fails
with NoRefreshToken but performs no transition at all — the in-memory session
and the persisted entries are left exactly as they were. -/
theorem refresh_no_token_throws_state_unchanged (st : AuthState) (net : Option TokenPair)
    (h : memRefreshTruthy st = false) :
    (refreshToken st net).2 = some .noRefreshToken ∧ (refreshToken st net).1 = st := by
  rw [memRefreshTruthy] at h
  match htp : st.tokens with
  | none => simp [refreshToken, htp]
  | some tp =>
    rw [htp] at h
    simp at h
    simp [refreshToken, htp, h]

theorem refresh_no_token_throws_state_unchanged_witness :
    (refreshToken
      (AuthState.mk .null none none [] (Store.mk none none none)) none).2 =
      some .noRefreshToken :=
  (refresh_no_token_throws_state_unchanged
    (AuthState.mk .null none none [] (Store.mk none none none)) none (by decide)).1

/-- C1 counterexample: with a refresh token in storage, two requests that both
receive a 401 in the same tick (neither retried) issue two refresh calls —
not at most one: http.ts has no single-flight machinery. -/
theorem refresh_not_single_flight :
    concurrentRefreshCalls (Store.mk (some (jstr "A1")) (some (jstr "R1")) (some (jstr "u")))
      [(401, false), (401, false)] = 2 ∧
    ¬ (concurrentRefreshCalls
        (Store.mk (some (jstr "A1")) (some (jstr "R1")) (some (jstr "u")))
        [(401, false), (401, false)] ≤ 1) := by decide

/-- C1 amended: each 401-failing, un-retried request triggers its own refresh
call, so N requests failing in the same tick issue exactly N refresh calls,
each awaiting its own outcome. -/
theorem refresh_per_request_count (store : Store) (rt : JSStr) (reqs : List (Nat × Bool))
    (hstore : store.refreshToken = some rt) (hrt : rt ≠ [])
    (hreqs : ∀ r ∈ reqs, r = (401, false)) :
    concurrentRefreshCalls store reqs = reqs.length := by
  induction reqs with
  | nil => simp [concurrentRefreshCalls]
  | cons r rest ih =>
    have hr : r = (401, false) := hreqs r (by simp)
    have hrest : concurrentRefreshCalls store rest = rest.length :=
      ih (fun x hx => hreqs x (by simp [hx]))
    subst hr
    have hhead : interceptSyncPhase store 401 false = .issuesRefresh rt := by
      simp [interceptSyncPhase, hstore, hrt]
    simp only [concurrentRefreshCalls, List.map_cons, List.countP_cons] at hrest ⊢
    rw [hrest, hhead]
    simp

theorem refresh_per_request_count_witness :
    concurrentRefreshCalls (Store.mk (some (jstr "A1")) (some (jstr "R1")) (some (jstr "u")))
      [(401, false), (401, false), (401, false), (401, false), (401, false)] = 5 :=
  refresh_per_request_count
    (Store.mk (some (jstr "A1")) (some (jstr "R1")) (some (jstr "u"))) (jstr "R1")
    [(401, false), (401, false), (401, false), (401, false), (401, false)]
    rfl (by decide) (by decide)

/-- C3 counterexample: an authenticated session whose request gets a 401 and
whose refresh call fails. The pipeline removes the three persisted entries,
redirects to /login and rejects with the refresh failure — but, contrary to
the claim, the in-memory session is not cleared: the state still reports
authenticated (only the subsequent page load discards it). -/
theorem pipeline_refresh_failure_memory_kept :
    (runRequestFromAuth
      (AuthState.mk (.obj (.cons (jstr "id") (.str (jstr "1")) .nil))
        (some (TokenPair.mk (jstr "A1") (jstr "R1") 3600 7200)) none []
        (Store.mk (some (jstr "A1")) (some (jstr "R1")) (some (jstr "u"))))
      false [401] none).2.outcome = .refreshError ∧
    (runRequestFromAuth
      (AuthState.mk (.obj (.cons (jstr "id") (.str (jstr "1")) .nil))
        (some (TokenPair.mk (jstr "A1") (jstr "R1") 3600 7200)) none []
        (Store.mk (some (jstr "A1")) (some (jstr "R1")) (some (jstr "u"))))
      false [401] none).1.store = Store.mk none none none ∧
    (runRequestFromAuth
      (AuthState.mk (.obj (.cons (jstr "id") (.str (jstr "1")) .nil))
        (some (TokenPair.mk (jstr "A1") (jstr "R1") 3600 7200)) none []
        (Store.mk (some (jstr "A1")) (some (jstr "R1")) (some (jstr "u"))))
      false [401] none).2.location = some (jstr "/login") ∧
    isAuthenticated
      ((runRequestFromAuth
        (AuthState.mk (.obj (.cons (jstr "id") (.str (jstr "1")) .nil))
          (some (TokenPair.mk (jstr "A1") (jstr "R1") 3600 7200)) none []
          (Store.mk (some (jstr "A1")) (some (jstr "R1")) (some (jstr "u"))))
        false [401] none).1) = true := by decide

/-- C3 amended: when the refresh attempt triggered by a 401 fails, the
pipeline removes the three persisted session entries, redirects the client to
the sign-in entry point, and rejects the request with the refresh failure —
but it does not clear the in-memory session object, whose refs pass through
unchanged (the cleanup of memory happens only through the forced page
load). -/
theorem pipeline_refresh_failure_effects (st : AuthState) (rest : List Nat)
    (hrt : truthyStr st.store.refreshToken = true) :
    (runRequestFromAuth st false (401 :: rest) none).2.outcome = .refreshError ∧
    (runRequestFromAuth st false (401 :: rest) none).2.location = some (jstr "/login") ∧
    (runRequestFromAuth st false (401 :: rest) none).2.refreshCalls = 1 ∧
    (runRequestFromAuth st false (401 :: rest) none).1.store.accessToken = none ∧
    (runRequestFromAuth st false (401 :: rest) none).1.store.refreshToken = none ∧
    (runRequestFromAuth st false (401 :: rest) none).1.store.userInfo = none ∧
    (runRequestFromAuth st false (401 :: rest) none).1.user = st.user ∧
    (runRequestFromAuth st false (401 :: rest) none).1.tokens = st.tokens := by
  rw [runRequestFromAuth, runRequest]
  simp [hrt]

theorem pipeline_refresh_failure_effects_witness :
    truthyStr (Store.mk (some (jstr "A1")) (some (jstr "R1"))
      (some (jstr "u"))).refreshToken = true ∧
    (runRequestFromAuth
      (AuthState.mk .null (some (TokenPair.mk (jstr "A1") (jstr "R1") 3600 7200)) none []
        (Store.mk (some (jstr "A1")) (some (jstr "R1")) (some (jstr "u"))))
      false [401] none).2.outcome = .refreshError :=
  ⟨by decide,
   (pipeline_refresh_failure_effects
     (AuthState.mk .null (some (TokenPair.mk (jstr "A1") (jstr "R1") 3600 7200)) none []
       (Store.mk (some (jstr "A1")) (some (jstr "R1")) (some (jstr "u"))))
     [] (by decide)).1⟩

theorem jsonStringify_ne_nil (v : JSValue) : jsonStringify v ≠ [] := by
  obtain ⟨c, r, hcr, -⟩ := printJSON_head v
  rw [jsonStringify, hcr]
  simp

/-- C7: the login persistence (save of the pair and principal) followed by a
restore from storage on a fresh anonymous state (load) returns the same
principal and the same two token strings, for every pair whose token strings
are nonempty (the well-formedness the store requires: empty strings are falsy
entries that load refuses). -/
theorem save_then_load_roundtrip (st : AuthState) (resp : LoginResponseData)
    (ha : resp.tokens.accessToken ≠ []) (hr : resp.tokens.refreshToken ≠ []) :
    (initAuth (AuthState.mk .null none none [] (login st (some resp)).1.store)).user =
      resp.user ∧
    (initAuth (AuthState.mk .null none none [] (login st (some resp)).1.store)).tokens =
      some (TokenPair.mk resp.tokens.accessToken resp.tokens.refreshToken 0 0) := by
  have hs := jsonStringify_ne_nil resp.user
  have hp := jsonParse_stringify resp.user
  simp [login, initAuth, truthyStr, hs, ha, hr, hp]

theorem save_then_load_roundtrip_witness :
    (initAuth (AuthState.mk .null none none []
      (login (AuthState.mk .null none none [] (Store.mk none none none))
        (some (LoginResponseData.mk
          (.obj (.cons (jstr "id") (.str (jstr "1"))
            (.cons (jstr "role") (.str (jstr "SUPER_ADMIN")) .nil)))
          (TokenPair.mk (jstr "A1") (jstr "R1") 3600 7200)))).1.store)).user =
      .obj (.cons (jstr "id") (.str (jstr "1"))
        (.cons (jstr "role") (.str (jstr "SUPER_ADMIN")) .nil)) :=
  (save_then_load_roundtrip
    (AuthState.mk .null none none [] (Store.mk none none none))
    (LoginResponseData.mk
      (.obj (.cons (jstr "id") (.str (jstr "1"))
        (.cons (jstr "role") (.str (jstr "SUPER_ADMIN")) .nil)))
      (TokenPair.mk (jstr "A1") (jstr "R1") 3600 7200))
    (by decide) (by decide)).1

theorem truthyStr_some {o : Option JSStr} (h : truthyStr o = true) :
    ∃ s, o = some s ∧ s ≠ [] := by
  match o with
  | none => simp [truthyStr] at h
  | some s => exact ⟨s, rfl, by simpa [truthyStr] using h⟩

/-- C8 counterexample: an authenticated session whose store holds exactly what
login persisted for it. Calling restore is not a no-op on this state: initAuth
unconditionally reinstalls the pair from storage with both expiry fields reset
to zero, so tokens.value changes (3600 becomes 0). -/
theorem restore_not_noop_when_authenticated :
    isAuthenticated
      (AuthState.mk (.obj (.cons (jstr "id") (.str (jstr "1")) .nil))
        (some (TokenPair.mk (jstr "A1") (jstr "R1") 3600 7200)) none []
        (Store.mk (some (jstr "A1")) (some (jstr "R1"))
          (some (jsonStringify (.obj (.cons (jstr "id") (.str (jstr "1")) .nil)))))) =
      true ∧
    initAuth
      (AuthState.mk (.obj (.cons (jstr "id") (.str (jstr "1")) .nil))
        (some (TokenPair.mk (jstr "A1") (jstr "R1") 3600 7200)) none []
        (Store.mk (some (jstr "A1")) (some (jstr "R1"))
          (some (jsonStringify (.obj (.cons (jstr "id") (.str (jstr "1")) .nil)))))) ≠
      AuthState.mk (.obj (.cons (jstr "id") (.str (jstr "1")) .nil))
        (some (TokenPair.mk (jstr "A1") (jstr "R1") 3600 7200)) none []
        (Store.mk (some (jstr "A1")) (some (jstr "R1"))
          (some (jsonStringify (.obj (.cons (jstr "id") (.str (jstr "1")) .nil))))) := by
  decide

/-- C8 amended: restore is idempotent, and called on an Anonymous state it
results in an authenticated session exactly when the three entries are
present and the principal entry parses to a truthy value; but when the
session is already Authenticated it is not a no-op — it reloads the session
from storage, resetting the in-memory expiry fields. -/
theorem restore_idempotent_and_anonymous (st : AuthState) :
    initAuth (initAuth st) = initAuth st ∧
    (st.user = .null → st.tokens = none →
      (isAuthenticated (initAuth st) = true ↔ storeLoadOk st.store = true)) := by
  obtain ⟨u0, t0, e0, p0, s0⟩ := st
  by_cases hc : truthyStr s0.userInfo ∧ truthyStr s0.accessToken ∧ truthyStr s0.refreshToken
  · obtain ⟨su, hsu, hsune⟩ := truthyStr_some hc.1
    obtain ⟨sa, hsa, hsane⟩ := truthyStr_some hc.2.1
    obtain ⟨sr, hsr, hsrne⟩ := truthyStr_some hc.2.2
    match hp : jsonParse su with
    | some u =>
      constructor
      · simp [initAuth, hsu, hsa, hsr, hp, hc, truthyStr, hsune, hsane, hsrne]
      · intro hu ht
        simp [initAuth, hsu, hsa, hsr, hp, hc, isAuthenticated, storeLoadOk, truthyStr,
          hsune, hsane, hsrne]
    | none =>
      constructor
      · simp [initAuth, hsu, hsa, hsr, hp, hc, clearAuthData, truthyStr, hsune, hsane, hsrne]
      · intro hu ht
        simp [initAuth, hsu, hsa, hsr, hp, hc, clearAuthData, isAuthenticated, storeLoadOk,
          truthyStr, JSValue.truthy, hsune, hsane, hsrne]
  · constructor
    · simp [initAuth, hc]
    · intro hu ht
      subst hu
      subst ht
      rw [initAuth, if_neg hc]
      simp [isAuthenticated, JSValue.truthy, storeLoadOk]
      intro h1 h2 h3
      exact absurd ⟨h1, h2, h3⟩ hc

theorem restore_idempotent_and_anonymous_witness :
    isAuthenticated
      (initAuth (AuthState.mk .null none none []
        (Store.mk (some (jstr "A1")) (some (jstr "R1"))
          (some (jstr "\x7b\x22id\x22:\x221\x22\x7d"))))) = true :=
  ((restore_idempotent_and_anonymous
    (AuthState.mk .null none none []
      (Store.mk (some (jstr "A1")) (some (jstr "R1"))
        (some (jstr "\x7b\x22id\x22:\x221\x22\x7d"))))).2 rfl rfl).mpr (by decide)

theorem splitOnCUAux_no_sep (sep : Nat) : ∀ (t acc : JSStr), (∀ c ∈ t, c ≠ sep) →
    splitOnCUAux sep t acc = [acc.reverse ++ t] := by
  intro t
  induction t with
  | nil =>
    intro acc h
    simp [splitOnCUAux]
  | cons c r ih =>
    intro acc h
    have hc : c ≠ sep := h c (by simp)
    simp [splitOnCUAux, hc, ih (c :: acc) (fun x hx => h x (by simp [hx]))]

/-- C4 counterexample: the token "x.MTIz.y" has a payload segment that decodes
to the JSON document "123" — syntactically valid but not a map. decode
returns the number 123 rather than null, refuting the non-map clause of the
claim; isExpiringSoon still fails closed on it. -/
theorem decode_nonmap_payload_not_null :
    parseJwtPayload (jstr "x.MTIz.y") = .num 123 ∧
    parseJwtPayload (jstr "x.MTIz.y") ≠ .null ∧
    isTokenExpiringSoon (jstr "x.MTIz.y") 0 = true := by decide

/-- C4 amended: decode returns null (without throwing) on an empty token, a
token without the structural delimiter, an invalid base64url payload segment,
an undecodable byte sequence, and unparseable JSON; a payload that parses to
a non-map value, however, is returned as-is (null only when the document is
JSON null). isExpiringSoon returns true for every token whose decoded payload
is not a map (fail-closed, covering all the above), and for a well-formed map
payload with a numeric nonzero expiry claim it returns true exactly when the
expiry instant minus the current time is below the threshold (default 5
minutes). -/
theorem token_decode_fail_closed :
    (parseJwtPayload [] = .null) ∧
    (∀ t : JSStr, (∀ c ∈ t, c ≠ 46) → parseJwtPayload t = .null) ∧
    (∀ t seg : JSStr, (splitOnCU 46 t).get? 1 = some seg →
      atobJS (seg.map b64urlFix) = none → parseJwtPayload t = .null) ∧
    (∀ (t seg : JSStr) (bytes : List Nat), (splitOnCU 46 t).get? 1 = some seg →
      atobJS (seg.map b64urlFix) = some bytes → utf8Decode bytes = none →
      parseJwtPayload t = .null) ∧
    (∀ (t seg : JSStr) (bytes : List Nat) (units : JSStr),
      (splitOnCU 46 t).get? 1 = some seg → atobJS (seg.map b64urlFix) = some bytes →
      utf8Decode bytes = some units → jsonParse units = none → parseJwtPayload t = .null) ∧
    (∀ (t : JSStr) (now thr : Int), isObjJS (parseJwtPayload t) = false →
      isTokenExpiringSoon t now thr = true) ∧
    (∀ (t : JSStr) (now thr : Int) (fs : JSObj) (e : Int),
      parseJwtPayload t = .obj fs → fs.lookup (jstr "exp") = some (.num e) → e ≠ 0 →
      (isTokenExpiringSoon t now thr = true ↔ e * 1000 - now < thr * 60 * 1000)) ∧
    (∀ (t : JSStr) (now : Int) (fs : JSObj) (e : Int),
      parseJwtPayload t = .obj fs → fs.lookup (jstr "exp") = some (.num e) → e ≠ 0 →
      (isTokenExpiringSoon t now = true ↔ e * 1000 - now < 5 * 60 * 1000)) := by
  refine ⟨by decide, ?_, ?_, ?_, ?_, ?_, ?_, ?_⟩
  · intro t h
    have hs : (splitOnCU 46 t).get? 1 = none := by
      rw [splitOnCU, splitOnCUAux_no_sep 46 t [] h]
      rfl
    simp only [List.get?_eq_getElem?] at hs
    simp [parseJwtPayload, hs]
  · intro t seg hseg hb
    simp only [List.get?_eq_getElem?] at hseg
    simp [parseJwtPayload, hseg, hb]
  · intro t seg bytes hseg hb hu
    simp only [List.get?_eq_getElem?] at hseg
    simp [parseJwtPayload, hseg, hb, hu]
  · intro t seg bytes units hseg hb hu hj
    simp only [List.get?_eq_getElem?] at hseg
    simp [parseJwtPayload, hseg, hb, hu, hj]
  · intro t now thr h
    match hp : parseJwtPayload t with
    | .null => simp [isTokenExpiringSoon, hp, JSValue.truthy]
    | .bool b =>
      cases b <;> simp [isTokenExpiringSoon, hp, JSValue.truthy, JSValue.get]
    | .num n =>
      simp [isTokenExpiringSoon, hp, JSValue.truthy, JSValue.get]
    | .str s =>
      simp [isTokenExpiringSoon, hp, JSValue.truthy, JSValue.get]
    | .arr xs =>
      simp [isTokenExpiringSoon, hp, JSValue.truthy, JSValue.get]
    | .obj fs => exact absurd h (by simp [hp, isObjJS])
  · intro t now thr fs e hp hl he
    rw [isTokenExpiringSoon]
    simp [hp, JSValue.truthy, JSValue.get, hl, he, jsToNumber]
  · intro t now fs e hp hl he
    rw [isTokenExpiringSoon]
    simp [hp, JSValue.truthy, JSValue.get, hl, he, jsToNumber]

theorem token_decode_fail_closed_witness :
    parseJwtPayload (jstr "header-without-delimiter") = .null ∧
    isTokenExpiringSoon (jstr "x.eyJleHAiOjEwMH0.y") 0 = true ∧
    isTokenExpiringSoon (jstr "x.eyJleHAiOjEwMH0.y") 100000000 = true :=
  ⟨token_decode_fail_closed.2.1 (jstr "header-without-delimiter") (by decide),
   (token_decode_fail_closed.2.2.2.2.2.2.2 (jstr "x.eyJleHAiOjEwMH0.y") 0
      (.cons (jstr "exp") (.num 100) .nil) 100 (by decide) (by decide) (by decide)).mpr
     (by decide),
   (token_decode_fail_closed.2.2.2.2.2.2.2 (jstr "x.eyJleHAiOjEwMH0.y") 100000000
      (.cons (jstr "exp") (.num 100) .nil) 100 (by decide) (by decide) (by decide)).mpr
     (by decide)⟩
